import Mathlib

/-!
Verification of the message-graph execution engine (package `graph`):
graph construction, compilation, and the sequential traversal loop.

The embedding follows `graph/graph.go`. The Go `context.Context` is an
opaque interface the engine only threads through, so it is modelled as a
type parameter `Ctx`. The Go `error` values produced by node functions
are opaque; they are modelled as `String`. The engine errors form the
inductive `Err`. The Go `map[string]Node` is modelled as an association
list where `AddNode` prepends and lookup takes the first match, which
has exactly the overwrite-on-reregistration semantics of map insert.
The unbounded `for` loop of `Invoke` is modelled as a single loop
iteration `step` plus a fuel-indexed iterator `invokeLoop`: a result of
`some r` means the loop terminated with outcome `r` within the given
fuel, `none` means the fuel ran out first.
-/

namespace graph

/-- END is the special constant used to represent the end node in the graph. -/
def END : String := "END"

/-- Message roles of `llms.MessageContent` (the state payload element type). -/
inductive ChatMessageType where
  | ai
  | human
  | system
  | tool
  | function
  | generic
  deriving DecidableEq, Repr

/-- Model of `llms.MessageContent`: a role together with text parts. -/
structure MessageContent where
  Role : ChatMessageType
  Parts : List String
  deriving DecidableEq, Repr

/-- Model of `llms.TextParts(role, text)` with a single text part. -/
def TextParts (role : ChatMessageType) (text : String) : MessageContent :=
  ⟨role, [text]⟩

/-- The state threaded through the graph: `[]llms.MessageContent`. -/
abbrev State := List MessageContent

/-- The sentinel errors of the package, plus the node-execution wrap
produced by `Invoke` (which carries the offending node name and the
underlying error). -/
inductive Err where
  | entryPointNotSet
  | nodeNotFound (name : String)
  | noOutgoingEdge (name : String)
  | nodeExecution (name : String) (underlying : String)
  deriving DecidableEq, Repr

/-- A node in the message graph: a name and a transformation function. -/
structure Node (Ctx : Type) where
  Name : String
  Function : Ctx → State → Except String State

/-- A static edge in the message graph. -/
structure Edge where
  From : String
  To : String
  deriving DecidableEq, Repr

/-- The mutable graph builder: node map (as an association list with
first-match lookup), edge list in registration order, and entry point. -/
structure MessageGraph (Ctx : Type) where
  nodes : List (String × Node Ctx)
  edges : List Edge
  entryPoint : String

/-- `NewMessageGraph`: empty node map, no edges, entry point unset
(the zero value of a Go string is the empty string). -/
def NewMessageGraph (Ctx : Type) : MessageGraph Ctx :=
  ⟨[], [], ""⟩

/-- `AddNode`: registers or overwrites the node with the given name. -/
def MessageGraph.AddNode {Ctx : Type} (g : MessageGraph Ctx) (name : String)
    (fn : Ctx → State → Except String State) : MessageGraph Ctx :=
  { g with nodes := (name, ⟨name, fn⟩) :: g.nodes }

/-- `AddEdge`: appends a static edge to the edge list. -/
def MessageGraph.AddEdge {Ctx : Type} (g : MessageGraph Ctx) (frm tgt : String) :
    MessageGraph Ctx :=
  { g with edges := g.edges ++ [⟨frm, tgt⟩] }

/-- `SetEntryPoint`: records the starting node name, overwriting any prior one. -/
def MessageGraph.SetEntryPoint {Ctx : Type} (g : MessageGraph Ctx) (name : String) :
    MessageGraph Ctx :=
  { g with entryPoint := name }

/-- `Runnable`: the compiled graph, wrapping the builder by reference. -/
structure Runnable (Ctx : Type) where
  graph : MessageGraph Ctx

/-- `Compile`: fails with `ErrEntryPointNotSet` when the entry point is
the empty string, otherwise wraps the graph in a `Runnable`. -/
def MessageGraph.Compile {Ctx : Type} (g : MessageGraph Ctx) :
    Except Err (Runnable Ctx) :=
  if g.entryPoint = "" then .error .entryPointNotSet
  else .ok ⟨g⟩

/-- The local execution state of one `Invoke` call: the receiver and the
two loop-local variables `currentNode` and `state`. -/
structure ExecState (Ctx : Type) where
  runnable : Runnable Ctx
  current : String
  state : State

/-- The outcome of one loop iteration: either continue at a new
execution state, or return from `Invoke` with a result. -/
inductive StepResult (Ctx : Type) where
  | next (e : ExecState Ctx)
  | done (r : Except Err State)

/-- One iteration of the loop body of `Invoke`: look the current node
up (absence fails with `ErrNodeNotFound`); run its function (an error is
wrapped as `error in node name: err`); if the current node is `END`,
break with the produced state; otherwise scan the edges in registration
order for the first one whose `From` equals the current node (absence
fails with `ErrNoOutgoingEdge`) and move to its `To`. -/
def step {Ctx : Type} (ctx : Ctx) (e : ExecState Ctx) : StepResult Ctx :=
  match e.runnable.graph.nodes.lookup e.current with
  | none => .done (.error (.nodeNotFound e.current))
  | some node =>
    match node.Function ctx e.state with
    | .error msg => .done (.error (.nodeExecution e.current msg))
    | .ok state1 =>
      if e.current = END then .done (.ok state1)
      else
        match e.runnable.graph.edges.find? (fun edge => edge.From == e.current) with
        | some edge => .next { e with current := edge.To, state := state1 }
        | none => .done (.error (.noOutgoingEdge e.current))

/-- Fuel-indexed iteration of `step`: `some r` means the loop of
`Invoke` returns `r` within `fuel` iterations, `none` means it is still
running after `fuel` iterations. -/
def invokeLoop {Ctx : Type} (ctx : Ctx) : Nat → ExecState Ctx → Option (Except Err State)
  | 0, _ => none
  | fuel + 1, e =>
    match step ctx e with
    | .done r => some r
    | .next e1 => invokeLoop ctx fuel e1

/-- `Invoke`: initialise `state` with the input messages and the cursor
with the entry point, then run the loop (with the given fuel bound). -/
def Runnable.Invoke {Ctx : Type} (r : Runnable Ctx) (ctx : Ctx) (messages : State)
    (fuel : Nat) : Option (Except Err State) :=
  invokeLoop ctx fuel ⟨r, r.graph.entryPoint, messages⟩

/-- The node-name path obtained by following the first-match static
edges from `current` until `END`, with a fuel bound; `none` when the
fuel runs out or a dead end is hit first. -/
def followPath {Ctx : Type} (g : MessageGraph Ctx) : Nat → String → Option (List String)
  | 0, _ => none
  | fuel + 1, current =>
    if current = END then some [END]
    else
      match g.edges.find? (fun edge => edge.From == current) with
      | some edge => (followPath g fuel edge.To).map (current :: ·)
      | none => none

/-- Left-to-right composition of the node functions along a list of
node names: each name is looked up (absence gives `ErrNodeNotFound`) and
its function applied (an error gives the node-execution wrap). -/
def runPath {Ctx : Type} (g : MessageGraph Ctx) (ctx : Ctx) :
    List String → State → Except Err State
  | [], s => .ok s
  | n :: rest, s =>
    match g.nodes.lookup n with
    | none => .error (.nodeNotFound n)
    | some node =>
      match node.Function ctx s with
      | .error msg => .error (.nodeExecution n msg)
      | .ok s1 => runPath g ctx rest s1

/-- Modelled from the spec: `AddConditionalEdge` and conditional edge
targets are absent from `graph/graph.go` (only the test suite calls
them), so the edge target type follows §3 of the spec: a target is
either a static node name or a routing function resolved at execution
time. -/
inductive CondTarget (Ctx : Type) where
  | static (tgt : String)
  | conditional (routingFn : Ctx → State → String)

/-- Modelled from the spec: an edge of the conditional-capable graph,
a directed relation from a source name to a static or conditional target. -/
structure CondEdge (Ctx : Type) where
  From : String
  target : CondTarget Ctx

/-- Modelled from the spec: the builder of the conditional-capable
graph, identical to `MessageGraph` except that its edge list admits
conditional targets. -/
structure CondGraph (Ctx : Type) where
  nodes : List (String × Node Ctx)
  edges : List (CondEdge Ctx)
  entryPoint : String

/-- Modelled from the spec: `AddEdge` on the conditional-capable
builder appends a static edge. -/
def CondGraph.AddEdge {Ctx : Type} (g : CondGraph Ctx) (frm tgt : String) :
    CondGraph Ctx :=
  { g with edges := g.edges ++ [⟨frm, .static tgt⟩] }

/-- Modelled from the spec: `AddConditionalEdge(from, routingFn)`
appends a conditional edge whose target is computed at execution time
by the routing function. -/
def CondGraph.AddConditionalEdge {Ctx : Type} (g : CondGraph Ctx) (frm : String)
    (routingFn : Ctx → State → String) : CondGraph Ctx :=
  { g with edges := g.edges ++ [⟨frm, .conditional routingFn⟩] }

/-- The outcome of one loop iteration on the conditional-capable graph:
either continue at a named node with a new state, or return a result. -/
inductive CondStepResult where
  | next (current : String) (s : State)
  | done (r : Except Err State)

/-- Modelled from the spec, §4.3: one loop iteration of `Invoke` on the
conditional-capable graph. Identical to `step` except for edge
resolution: the first edge in registration order whose `From` equals
the current node is taken; a static target gives the next name
directly, a conditional target gives `routingFn(ctx, state)` evaluated
on the post-step state just produced by the node function. -/
def condStep {Ctx : Type} (g : CondGraph Ctx) (ctx : Ctx) (current : String)
    (s : State) : CondStepResult :=
  match g.nodes.lookup current with
  | none => .done (.error (.nodeNotFound current))
  | some node =>
    match node.Function ctx s with
    | .error msg => .done (.error (.nodeExecution current msg))
    | .ok state1 =>
      if current = END then .done (.ok state1)
      else
        match g.edges.find? (fun edge => edge.From == current) with
        | some edge =>
          match edge.target with
          | .static tgt => .next tgt state1
          | .conditional routingFn => .next (routingFn ctx state1) state1
        | none => .done (.error (.noOutgoingEdge current))

/-- Modelled from the spec: fuel-indexed iteration of `condStep`, the
execution loop of `Invoke` on the conditional-capable graph. -/
def condInvokeLoop {Ctx : Type} (g : CondGraph Ctx) (ctx : Ctx) :
    Nat → String → State → Option (Except Err State)
  | 0, _, _ => none
  | fuel + 1, current, s =>
    match condStep g ctx current s with
    | .done r => some r
    | .next nxt s1 => condInvokeLoop g ctx fuel nxt s1

/-- Modelled from the spec: `AddNode` on the conditional-capable
builder, identical to the static one. -/
def CondGraph.AddNode {Ctx : Type} (g : CondGraph Ctx) (name : String)
    (fn : Ctx → State → Except String State) : CondGraph Ctx :=
  { g with nodes := (name, ⟨name, fn⟩) :: g.nodes }

/-- Modelled from the spec: the empty conditional-capable builder. -/
def NewCondGraph (Ctx : Type) : CondGraph Ctx :=
  ⟨[], [], ""⟩

/-! Concrete graphs used to instantiate the theorems below. -/

/-- Scenario node: appends an AI message `Node 1`. -/
def n1Fn : Unit → State → Except String State :=
  fun _ s => .ok (s ++ [TextParts .ai "Node 1"])

/-- Scenario node: appends an AI message `Node 2`. -/
def n2Fn : Unit → State → Except String State :=
  fun _ s => .ok (s ++ [TextParts .ai "Node 2"])

/-- Scenario node: the passthrough END node. -/
def endFn : Unit → State → Except String State :=
  fun _ s => .ok s

/-- Scenario A: nodes `n1`, `n2`, `END`, edges `n1→n2` and `n2→END`,
entry point `n1`. -/
def scenarioA : MessageGraph Unit :=
  ((((((NewMessageGraph Unit).AddNode "n1" n1Fn).AddNode "n2" n2Fn).AddNode
      END endFn).AddEdge "n1" "n2").AddEdge "n2" END).SetEntryPoint "n1"

/-- Scenario node: appends an AI message `cleanup`. -/
def cleanupFn : Unit → State → Except String State :=
  fun _ s => .ok (s ++ [TextParts .ai "cleanup"])

/-- A graph whose END node transforms the state and even has an
outgoing edge registered. -/
def endGraph : MessageGraph Unit :=
  (((NewMessageGraph Unit).AddNode END cleanupFn).AddEdge END "ghost").SetEntryPoint END

/-- A builder with a dangling edge and an unregistered entry point:
compiles anyway. -/
def danglingGraph : MessageGraph Unit :=
  (((NewMessageGraph Unit).AddEdge "ghost1" "ghost2").SetEntryPoint "missing")

/-- Scenario node: always fails with the error `node error`. -/
def boomFn : Unit → State → Except String State :=
  fun _ _ => .error "node error"

/-- A graph whose entry node fails, with an edge onward that must never
be taken. -/
def boomGraph : MessageGraph Unit :=
  (((NewMessageGraph Unit).AddNode "boom" boomFn).AddEdge "boom" END).SetEntryPoint "boom"

/-- Scenario node: returns the state unchanged. -/
def idFn : Unit → State → Except String State :=
  fun _ s => .ok s

/-- A graph whose node `a` points to `END` but `END` is never
registered as a node. -/
def missingEndGraph : MessageGraph Unit :=
  (((NewMessageGraph Unit).AddNode "a" idFn).AddEdge "a" END).SetEntryPoint "a"

/-- A graph with a single node and no edges at all: a dead end. -/
def deadEndGraph : MessageGraph Unit :=
  ((NewMessageGraph Unit).AddNode "solo" idFn).SetEntryPoint "solo"

/-- Scenario node: appends an AI message `A`. -/
def aFn : Unit → State → Except String State :=
  fun _ s => .ok (s ++ [TextParts .ai "A"])

/-- Scenario node: appends an AI message `B`. -/
def bFn : Unit → State → Except String State :=
  fun _ s => .ok (s ++ [TextParts .ai "B"])

/-- Scenario node: appends an AI message `C`. -/
def cFn : Unit → State → Except String State :=
  fun _ s => .ok (s ++ [TextParts .ai "C"])

/-- A graph registering two static edges out of `a` (first `a→b`, then
`a→c`): traversal must honour the first one. -/
def twoEdgeGraph : MessageGraph Unit :=
  ((((((((NewMessageGraph Unit).AddNode "a" aFn).AddNode "b" bFn).AddNode
      "c" cFn).AddNode END endFn).AddEdge "a" "b").AddEdge "a" "c").AddEdge
      "b" END).SetEntryPoint "a"

/-- Scenario node: appends an AI message `use the calculator`. -/
def askCalcFn : Unit → State → Except String State :=
  fun _ s => .ok (s ++ [TextParts .ai "use the calculator"])

/-- Scenario node: appends a tool message `1+1=2`. -/
def calcFn : Unit → State → Except String State :=
  fun _ s => .ok (s ++ [TextParts .tool "1+1=2"])

/-- Scenario routing function: routes to `calculator` when the last
message has the part `use the calculator`, else to `node2`. -/
def routeB : Unit → State → String :=
  fun _ s =>
    match s.getLast? with
    | some m => if m.Parts.contains "use the calculator" then "calculator" else "node2"
    | none => "node2"

/-- Scenario B: a conditional edge out of `n1` registered first, a
mistaken static edge `n1→node2` registered right after it, and static
edges from `node2` and `calculator` to `END`. -/
def scenarioB : CondGraph Unit :=
  (((((((NewCondGraph Unit).AddNode "n1" askCalcFn).AddNode "node2" n2Fn).AddNode
      "calculator" calcFn).AddNode END endFn).AddConditionalEdge "n1"
      routeB).AddEdge "n1" "node2").AddEdge "node2" END |>.AddEdge "calculator" END

section Lemmas

/-- Helper: the loop started at any cursor computes the left-to-right
composition of the node functions along the edge-determined path. -/
theorem invokeLoop_eq_runPath {Ctx : Type} (g : MessageGraph Ctx) (ctx : Ctx) :
    ∀ (fuel : Nat) (current : String) (s : State) (p : List String),
      followPath g fuel current = some p →
      invokeLoop ctx fuel ⟨⟨g⟩, current, s⟩ = some (runPath g ctx p s) := by
  intro fuel
  induction fuel with
  | zero => intro current s p h; simp [followPath] at h
  | succ fuel ih =>
    intro current s p h
    by_cases hEnd : current = END
    · subst hEnd
      rw [followPath, if_pos rfl] at h
      cases h
      cases hl : g.nodes.lookup END with
      | none => simp [invokeLoop, step, hl, runPath]
      | some node =>
        cases hf : node.Function ctx s with
        | error msg => simp [invokeLoop, step, hl, hf, runPath]
        | ok s1 => simp [invokeLoop, step, hl, hf, runPath]
    · rw [followPath, if_neg hEnd] at h
      cases he : g.edges.find? (fun edge => edge.From == current) with
      | none => rw [he] at h; cases h
      | some edge =>
        rw [he] at h
        rw [Option.map_eq_some'] at h
        obtain ⟨p1, hp1, rfl⟩ := h
        cases hl : g.nodes.lookup current with
        | none => simp [invokeLoop, step, hl, runPath]
        | some node =>
          cases hf : node.Function ctx s with
          | error msg => simp [invokeLoop, step, hl, hf, runPath]
          | ok s1 =>
            rw [invokeLoop]
            simp only [step, hl, hf, if_neg hEnd, he]
            rw [runPath]
            simp only [hl, hf]
            exact ih edge.To s1 p1 hp1

/-- Helper: a scan for the first match skips a prefix with no match. -/
theorem find?_skip {α : Type} (p : α → Bool) (l1 l2 : List α)
    (h : ∀ a ∈ l1, p a = false) : (l1 ++ l2).find? p = l2.find? p := by
  induction l1 with
  | nil => rfl
  | cons a as ih =>
    rw [List.cons_append, List.find?_cons_of_neg _ (by simp [h a (by simp)])]
    exact ih fun a1 ha1 => h a1 (by simp [ha1])

end Lemmas

/-- Claim C1: on a graph with only static edges, `Invoke` visits
exactly the node path obtained by following the first-match `From→To`
edges from the entry point to `END`, and returns the left-to-right
composition of the visited node functions applied to the initial
state. -/
theorem invoke_visits_static_path {Ctx : Type} (r : Runnable Ctx) (ctx : Ctx)
    (fuel : Nat) (s : State) (p : List String)
    (h : followPath r.graph fuel r.graph.entryPoint = some p) :
    r.Invoke ctx s fuel = some (runPath r.graph ctx p s) := by
  obtain ⟨g⟩ := r
  exact invokeLoop_eq_runPath g ctx fuel g.entryPoint s p h

/-- Witness for C1: scenario A. The edge-determined path is
`n1, n2, END` and invoking on `[Human "Input"]` returns
`[Human "Input", AI "Node 1", AI "Node 2"]`. -/
theorem invoke_visits_static_path_witness :
    Runnable.Invoke ⟨scenarioA⟩ () [TextParts .human "Input"] 3 =
      some (.ok [TextParts .human "Input", TextParts .ai "Node 1",
        TextParts .ai "Node 2"]) :=
  (invoke_visits_static_path ⟨scenarioA⟩ () 3 [TextParts .human "Input"]
    ["n1", "n2", "END"] rfl).trans rfl

/-- Claim C3: when the execution cursor equals `END`, the loop runs the
END node function on the current state and terminates successfully with
the state that function produced, without attempting edge resolution —
whatever edges originate from `END` and whatever fuel remains. -/
theorem end_node_is_terminal {Ctx : Type} (r : Runnable Ctx) (ctx : Ctx)
    (fuel : Nat) (s s1 : State) (node : Node Ctx)
    (hl : r.graph.nodes.lookup END = some node)
    (hf : node.Function ctx s = .ok s1) :
    invokeLoop ctx (fuel + 1) ⟨r, END, s⟩ = some (.ok s1) := by
  simp [invokeLoop, step, hl, hf]

/-- Witness for C3: a graph whose END node appends a cleanup message
and even has an outgoing edge; invoking at `END` still terminates with
the transformed state. -/
theorem end_node_is_terminal_witness :
    Runnable.Invoke ⟨endGraph⟩ () [] 1 = some (.ok [TextParts .ai "cleanup"]) :=
  end_node_is_terminal ⟨endGraph⟩ () 0 [] [TextParts .ai "cleanup"]
    ⟨END, cleanupFn⟩ rfl rfl

/-- Claim C4: `Compile` fails with the entry-point error exactly when
the recorded entry point is the empty string (the state of a builder on
which no entry point was recorded), and performs no other validation:
any builder with a nonempty entry point compiles, dangling edges and
unregistered nodes included. -/
theorem compile_checks_only_entry_point {Ctx : Type} (g : MessageGraph Ctx) :
    (g.entryPoint = "" → g.Compile = .error .entryPointNotSet) ∧
    (g.entryPoint ≠ "" → g.Compile = .ok ⟨g⟩) := by
  constructor <;> intro h <;> simp [MessageGraph.Compile, h]

/-- Witness for C4: the empty builder does not compile, while a builder
with a dangling edge and an entry point naming an unregistered node
compiles fine. -/
theorem compile_checks_only_entry_point_witness :
    (NewMessageGraph Unit).Compile = .error .entryPointNotSet ∧
    danglingGraph.Compile = .ok ⟨danglingGraph⟩ :=
  ⟨(compile_checks_only_entry_point (NewMessageGraph Unit)).1 rfl,
   (compile_checks_only_entry_point danglingGraph).2 (by decide)⟩

/-- Claim C5: when the current node function returns an error, the loop
returns immediately with the node-execution wrap carrying the node name
and the underlying error; no state is returned and neither edge
resolution nor any further node runs, whatever fuel remains. -/
theorem node_error_short_circuits {Ctx : Type} (r : Runnable Ctx) (ctx : Ctx)
    (fuel : Nat) (current : String) (s : State) (node : Node Ctx) (msg : String)
    (hl : r.graph.nodes.lookup current = some node)
    (hf : node.Function ctx s = .error msg) :
    invokeLoop ctx (fuel + 1) ⟨r, current, s⟩ =
      some (.error (.nodeExecution current msg)) := by
  simp [invokeLoop, step, hl, hf]

/-- Witness for C5: the graph whose entry node fails with `node error`
returns the wrapped error even though an edge onward exists. -/
theorem node_error_short_circuits_witness :
    Runnable.Invoke ⟨boomGraph⟩ () [] 5 =
      some (.error (.nodeExecution "boom" "node error")) :=
  node_error_short_circuits ⟨boomGraph⟩ () 4 "boom" [] ⟨"boom", boomFn⟩
    "node error" rfl rfl

/-- Claim C6: a name absent from the node map — the entry point, any
reachable edge target, even `END` itself — passes `Compile` (as long as
the entry point is nonempty) but makes the loop fail with the
node-not-found error carrying that name the moment the cursor reaches
it, before any function call. -/
theorem missing_node_fails_at_invoke {Ctx : Type} (g : MessageGraph Ctx)
    (ctx : Ctx) (fuel : Nat) (s : State) (current : String)
    (hep : g.entryPoint ≠ "")
    (habs : g.nodes.lookup current = none) :
    g.Compile = .ok ⟨g⟩ ∧
    invokeLoop ctx (fuel + 1) ⟨⟨g⟩, current, s⟩ =
      some (.error (.nodeNotFound current)) := by
  refine ⟨by simp [MessageGraph.Compile, hep], ?_⟩
  simp [invokeLoop, step, habs]

/-- Witness for C6: the graph whose edge `a→END` targets an
unregistered `END` node compiles, and the loop at cursor `END` fails
with node-not-found for `END`. -/
theorem missing_node_fails_at_invoke_witness :
    missingEndGraph.Compile = .ok ⟨missingEndGraph⟩ ∧
    invokeLoop () 1 ⟨⟨missingEndGraph⟩, END, []⟩ =
      some (.error (.nodeNotFound END)) :=
  missing_node_fails_at_invoke missingEndGraph () 0 [] END (by decide) rfl

/-- Claim C7: a node other than `END` whose function succeeds but from
which no registered edge originates makes the loop fail with the
no-outgoing-edge error carrying that name; the function has already
run, and no state is returned. -/
theorem dead_end_fails_no_outgoing {Ctx : Type} (r : Runnable Ctx) (ctx : Ctx)
    (fuel : Nat) (current : String) (s s1 : State) (node : Node Ctx)
    (hne : current ≠ END)
    (hl : r.graph.nodes.lookup current = some node)
    (hf : node.Function ctx s = .ok s1)
    (hno : ∀ e ∈ r.graph.edges, e.From ≠ current) :
    invokeLoop ctx (fuel + 1) ⟨r, current, s⟩ =
      some (.error (.noOutgoingEdge current)) := by
  have hfind : r.graph.edges.find? (fun edge => edge.From == current) = none := by
    rw [List.find?_eq_none]
    intro e he
    simpa using hno e he
  simp [invokeLoop, step, hl, hf, hne, hfind]

/-- Witness for C7: the one-node graph with no edges fails with
no-outgoing-edge for `solo` after its function ran. -/
theorem dead_end_fails_no_outgoing_witness :
    Runnable.Invoke ⟨deadEndGraph⟩ () [] 1 =
      some (.error (.noOutgoingEdge "solo")) :=
  dead_end_fails_no_outgoing ⟨deadEndGraph⟩ () 0 "solo" [] [] ⟨"solo", idFn⟩
    (by decide) rfl rfl (by simp [deadEndGraph, NewMessageGraph,
      MessageGraph.AddNode, MessageGraph.SetEntryPoint])

/-- Claim C8: when several registered edges share the same `From`, the
loop follows the earliest-registered matching edge: with the edge list
split as a prefix with no match, a first matching edge `e`, and an
arbitrary remainder, the next cursor is `e.To` and the remainder is
never consulted. -/
theorem first_matching_edge_wins {Ctx : Type} (g : MessageGraph Ctx) (ctx : Ctx)
    (fuel : Nat) (current : String) (s s1 : State) (node : Node Ctx)
    (es1 es2 : List Edge) (e : Edge)
    (hedges : g.edges = es1 ++ e :: es2)
    (hfirst : ∀ e1 ∈ es1, e1.From ≠ current)
    (hmatch : e.From = current)
    (hne : current ≠ END)
    (hl : g.nodes.lookup current = some node)
    (hf : node.Function ctx s = .ok s1) :
    invokeLoop ctx (fuel + 1) ⟨⟨g⟩, current, s⟩ =
      invokeLoop ctx fuel ⟨⟨g⟩, e.To, s1⟩ := by
  have hfind : g.edges.find? (fun edge => edge.From == current) = some e := by
    rw [hedges, find?_skip _ _ _ fun e1 he1 => by simpa using hfirst e1 he1,
      List.find?_cons_of_pos _ (by simp [hmatch])]
  simp [invokeLoop, step, hl, hf, hne, hfind]

/-- Witness for C8: with edges `a→b` then `a→c` both registered, the
run goes through `b`, so the final state carries `A` then `B`. -/
theorem first_matching_edge_wins_witness :
    Runnable.Invoke ⟨twoEdgeGraph⟩ () [] 3 =
      some (.ok [TextParts .ai "A", TextParts .ai "B"]) :=
  (first_matching_edge_wins twoEdgeGraph () 2 "a" [] [TextParts .ai "A"]
    ⟨"a", aFn⟩ [] [⟨"a", "c"⟩, ⟨"b", END⟩] ⟨"a", "b"⟩ rfl (by simp)
    rfl (by decide) rfl rfl).trans rfl

/-- Claim C9: one loop iteration never changes the compiled graph: when
`step` continues to a new execution state, that state carries the very
same `Runnable` (hence the same node map, edge list and entry point);
only the cursor and the threaded state, both local to the invocation,
change. -/
theorem step_preserves_graph {Ctx : Type} (ctx : Ctx) (e e1 : ExecState Ctx)
    (h : step ctx e = .next e1) : e1.runnable = e.runnable := by
  unfold step at h
  repeat' split at h
  all_goals cases h
  rfl

/-- Witness for C9: the first step of scenario A moves the cursor to
`n2` and keeps the same runnable. -/
theorem step_preserves_graph_witness :
    (ExecState.mk ⟨scenarioA⟩ "n2" [TextParts .ai "Node 1"]).runnable =
      (ExecState.mk ⟨scenarioA⟩ "n1" []).runnable :=
  step_preserves_graph () ⟨⟨scenarioA⟩, "n1", []⟩
    ⟨⟨scenarioA⟩, "n2", [TextParts .ai "Node 1"]⟩ rfl

/-- Claim C10: recording the empty string as entry point leaves the
builder in the same not-set state the empty builder starts in, so
`Compile` rejects it with the entry-point error: no graph whose entry
node is named by the empty string can ever be compiled. -/
theorem empty_entry_point_never_compiles {Ctx : Type} (g : MessageGraph Ctx) :
    (g.SetEntryPoint "").Compile = .error .entryPointNotSet ∧
    (NewMessageGraph Ctx).Compile = .error .entryPointNotSet :=
  ⟨rfl, rfl⟩

/-- Claim C2: when the first registered edge out of the current node is
conditional, the next cursor after the node function succeeds is
exactly the name the routing function returns on the post-step state —
the state just produced — and any later edge for the same source, a
mistaken static one included, is never consulted. -/
theorem conditional_edge_routes {Ctx : Type} (g : CondGraph Ctx) (ctx : Ctx)
    (fuel : Nat) (frm : String) (routingFn : Ctx → State → String)
    (es1 es2 : List (CondEdge Ctx)) (s s1 : State) (node : Node Ctx)
    (hedges : g.edges = es1 ++ ⟨frm, .conditional routingFn⟩ :: es2)
    (hfirst : ∀ e1 ∈ es1, e1.From ≠ frm)
    (hne : frm ≠ END)
    (hl : g.nodes.lookup frm = some node)
    (hf : node.Function ctx s = .ok s1) :
    condInvokeLoop g ctx (fuel + 1) frm s =
      condInvokeLoop g ctx fuel (routingFn ctx s1) s1 := by
  have hfind : g.edges.find? (fun edge => edge.From == frm) =
      some ⟨frm, .conditional routingFn⟩ := by
    rw [hedges, find?_skip _ _ _ fun e1 he1 => by simpa using hfirst e1 he1,
      List.find?_cons_of_pos _ (by simp)]
  simp [condInvokeLoop, condStep, hl, hf, hne, hfind]

/-- Witness for C2: in scenario B the routing function inspects the
just-produced message and routes to `calculator`, not to the mistaken
static edge `n1→node2` registered after it; the final state has exactly
three messages. -/
theorem conditional_edge_routes_witness :
    condInvokeLoop scenarioB () 4 "n1" [TextParts .human "what is 1+1?"] =
      some (.ok [TextParts .human "what is 1+1?",
        TextParts .ai "use the calculator", TextParts .tool "1+1=2"]) :=
  (conditional_edge_routes scenarioB () 3 "n1" routeB []
    [⟨"n1", .static "node2"⟩, ⟨"node2", .static END⟩, ⟨"calculator", .static END⟩]
    [TextParts .human "what is 1+1?"]
    [TextParts .human "what is 1+1?", TextParts .ai "use the calculator"]
    ⟨"n1", askCalcFn⟩ rfl (by simp) (by decide) rfl rfl).trans rfl

end graph
